import Mathlib

/-!
Verification of the codec core of `tracker-rofi` (src/src/main.rs).

Strings are modelled as lists of byte values (`List Nat`): a Rust `&str` /
`String` is a validated UTF-8 byte sequence, and every operation the program
performs on strings (`as_bytes`, `replace` of ASCII characters, length) is
byte-level.  Machine integers (`u32`) are modelled as `Nat` with explicit
reduction modulo 2^32 where the Rust code can wrap (release-profile wrapping
arithmetic).  The host is modelled as little-endian, which is the byte order
of every platform this desktop utility targets; `nom`'s
`u32(Endianness::Native)` therefore reads four bytes least-significant
first.

Fallible paths are explicit: `nom` parser errors (`Err::Error`) and Rust
panics (`unwrap` on `None`/`Err`, `from_utf8(..).unwrap()`) are separate
constructors, because `nom::multi::many0` treats the former as the loop
terminator while a panic aborts the whole program.

`Url::parse` belongs to the external `url` crate, not to this repository, so
the decoder is parameterised over an abstract `urlParse : List Nat → Option
Url`; a `Url` carries exactly the data the program reads back out of it
(`path_segments`).
-/

namespace TrackerRofi

/-- Modulus of `u32` arithmetic. -/
def u32Mod : Nat := 4294967296

/-- Reduce a value modulo 2^32, as Rust wrapping `u32` arithmetic does. -/
def wrap32 (n : Nat) : Nat := n % u32Mod

/-- Wrapping `u32` subtraction `a - b` (release-profile Rust semantics of
`l - offset` in `parse_one`). -/
def wsub (a b : Nat) : Nat := (a + (u32Mod - b % u32Mod)) % u32Mod

/-- Little-endian four-byte encoding of a 32-bit value, the layout consumed
by `nom`'s `u32(Endianness::Native)` on the modelled host. -/
def le32 (n : Nat) : List Nat :=
  [n % 256, n / 256 % 256, n / 65536 % 256, n / 16777216 % 256]

/-- Read one native-endian `u32` (4 bytes, least significant first), as
`nom::number::complete::u32(Endianness::Native)` does; `none` is the `nom`
error on a too-short input. -/
def readU32 : List Nat → Option (List Nat × Nat)
  | a :: b :: c :: d :: r => some (r, a + 256 * b + 65536 * c + 16777216 * d)
  | _ => none

/-- Read `n` consecutive `u32` values, as `nom::multi::count(p, n)` does. -/
def readU32s : Nat → List Nat → Option (List Nat × List Nat)
  | 0, b => some (b, [])
  | n + 1, b =>
    match readU32 b with
    | none => none
    | some (b1, x) =>
      match readU32s n b1 with
      | none => none
      | some (b2, xs) => some (b2, x :: xs)

/-- Take exactly `n` bytes from the front of the buffer, as
`nom::bytes::complete::take(n)` does; `none` on a too-short input. -/
def takeN (n : Nat) (b : List Nat) : Option (List Nat × List Nat) :=
  if b.length < n then none else some (b.drop n, b.take n)

/-- Whether a byte is a UTF-8 continuation byte (`0x80..=0xBF`). -/
def isCont (c : Nat) : Bool := decide (128 ≤ c ∧ c ≤ 191)

/-- One step of the UTF-8 validation automaton used to model
`std::str::from_utf8`.  State 0 is the start state; states 1 and 2 expect
one resp. two unconstrained continuation bytes; states 3/4 (after `E0`/`ED`)
and 6/7 (after `F0`/`F4`) expect a range-restricted first continuation byte,
exactly as Rust's validator rejects overlong encodings, surrogates and
values above `U+10FFFF`. -/
def utf8Step (st b : Nat) : Option Nat :=
  if st = 0 then
    if b ≤ 127 then some 0
    else if 194 ≤ b ∧ b ≤ 223 then some 1
    else if b = 224 then some 3
    else if b = 237 then some 4
    else if 225 ≤ b ∧ b ≤ 239 then some 2
    else if b = 240 then some 6
    else if b = 244 then some 7
    else if 241 ≤ b ∧ b ≤ 243 then some 5
    else none
  else if st = 1 then if isCont b then some 0 else none
  else if st = 2 then if isCont b then some 1 else none
  else if st = 3 then if 160 ≤ b ∧ b ≤ 191 then some 1 else none
  else if st = 4 then if 128 ≤ b ∧ b ≤ 159 then some 1 else none
  else if st = 5 then if isCont b then some 2 else none
  else if st = 6 then if 144 ≤ b ∧ b ≤ 191 then some 2 else none
  else if st = 7 then if 128 ≤ b ∧ b ≤ 143 then some 2 else none
  else none

/-- Run the UTF-8 automaton from a given state over a byte list. -/
def utf8ValidFrom : Nat → List Nat → Bool
  | st, [] => decide (st = 0)
  | st, b :: r =>
    match utf8Step st b with
    | none => false
    | some st1 => utf8ValidFrom st1 r

/-- Whether a byte list is valid UTF-8: models the success of
`std::str::from_utf8`. -/
def utf8Valid (l : List Nat) : Bool := utf8ValidFrom 0 l

/-- The structured resource locator, as far as the program reads it back:
`Url::parse` comes from the external `url` crate, so only the data the
program consumes (`Url::path_segments`) is represented.  `path_segments` is
`none` for a cannot-be-a-base URL, otherwise the list of path segments
(each a percent-encoded byte string). -/
structure Url where
  path_segments : Option (List (List Nat))
deriving DecidableEq

/-- One decoded search result, mirroring `struct QueryResult` of the source
(`uuid`, `uri`, `title`, `_snippet`). -/
structure QueryResult where
  uuid : List Nat
  uri : Url
  title : List Nat
  snippet : List Nat
deriving DecidableEq

/-- A concrete stand-in for the external `Url::parse` that accepts every
locator string, producing a cannot-be-a-base URL; used to instantiate the
abstract parser in concrete evaluations. -/
def urlAccept : List Nat → Option Url := fun _ => some ⟨none⟩

/-- A concrete stand-in for the external `Url::parse` that fails on the
single-byte locator string `"b"` and accepts everything else; used to
exercise the locator-parse-failure path on concrete inputs. -/
def urlRejectB : List Nat → Option Url :=
  fun s => if s = [98] then none else some ⟨none⟩

/-- Mirrors `QueryResult::new`: builds the result, returning `none` exactly
when the locator string fails to parse as a URL (`Url::parse(uristr).ok()?`).
Parameterised over the external parser `urlParse` standing for
`Url::parse`. -/
def QueryResult.new (urlParse : List Nat → Option Url)
    (uuid uristr title snippet : List Nat) : Option QueryResult :=
  (urlParse uristr).map fun u => ⟨uuid, u, title, snippet⟩

/-- Outcome of a `nom` parser invocation in the source: `ok rest val` is a
successful parse with unconsumed input `rest`; `err` is a recoverable `nom`
`Err::Error`; `panic` models a Rust panic raised while the parser ran
(`unwrap` on `None`, `from_utf8(..).unwrap()` on invalid UTF-8). -/
inductive ParseOut (α : Type) where
  | ok (rest : List Nat) (val : α)
  | err
  | panic
deriving DecidableEq

/-- Outcome of one of the `tracker_*_v3` query functions after the transport
has delivered the column list and the raw cursor bytes: `ok` is the returned
value, `fail msg` an `anyhow` error return with the given message, `panic` a
Rust panic (program abort). -/
inductive QueryOut (α : Type) where
  | ok (val : α)
  | fail (msg : String)
  | panic
deriving DecidableEq

/-- Sequencing of parser steps, modelling Rust's `?` / early-return control
flow on `nom` results: a success feeds the remaining input and value to the
continuation; an error or a panic short-circuits. -/
def pbind : ParseOut α → (List Nat → α → ParseOut β) → ParseOut β
  | .ok rest v, f => f rest v
  | .err, _ => .err
  | .panic, _ => .panic

/-- Lift an `Option`-valued `nom` combinator result (`none` = `Err::Error`)
into `ParseOut`. -/
def liftNom : Option (List Nat × α) → ParseOut α
  | some (r, v) => .ok r v
  | none => .err

/-- The field-extraction loop of `parse_one` (main.rs lines 92-102): for
each cumulative length marker `l`, compute `len = l - offset` (wrapping
`u32` subtraction), take `len` raw bytes, consume one NUL byte
(`tag(&[0u8])`), check the bytes are valid UTF-8
(`from_utf8(x).unwrap()`, a panic on failure), and advance
`offset += len + 1` (wrapping). -/
def parse_fields : List Nat → Nat → List Nat → ParseOut (List (List Nat))
  | [], _, b => .ok b []
  | l :: ls, off, b =>
    match takeN (wsub l off) b with
    | none => .err
    | some (bp, x) =>
      match bp with
      | 0 :: bp2 =>
        if utf8Valid x then
          match parse_fields ls (wrap32 (off + wsub l off + 1)) bp2 with
          | .ok bf xs => .ok bf (x :: xs)
          | .err => .err
          | .panic => .panic
        else .panic
      | _ => .err

/-- Mirrors `parse_one` (main.rs lines 85-107): a 4-byte tag `[4,0,0,0]`
(`nom` error on mismatch), four discarded `u32` type tags, four `u32`
cumulative length markers, the field loop, then
`QueryResult::new(..).unwrap()` — a panic when the locator field fails
`Url::parse`. -/
def parse_one (urlParse : List Nat → Option Url) (buf : List Nat) :
    ParseOut QueryResult :=
  if buf.take 4 = [4, 0, 0, 0] then
    pbind (liftNom (readU32s 4 (buf.drop 4))) fun b1 _types =>
    pbind (liftNom (readU32s 4 b1)) fun b2 lens =>
    pbind (parse_fields lens 0 b2) fun b3 res =>
    match res with
    | [r0, r1, r2, r3] =>
      match QueryResult.new urlParse r0 r1 r2 r3 with
      | some qr => .ok b3 qr
      | none => .panic
    | _ => .panic
  else .err

/-- Fueled body of `nom::multi::many0(parse_one)`: repeat the row parser; a
recoverable parser error terminates the loop successfully with the rows
accumulated so far; a panic aborts; a successful parse that consumes no
input is `many0`'s own error.  The fuel only bounds the recursion: the
caller supplies `buf.length + 1`, and since every successful `parse_one`
consumes at least the 4 tag bytes the fuel never reaches 0. -/
def many0_go (urlParse : List Nat → Option Url) :
    Nat → List Nat → ParseOut (List QueryResult)
  | 0, _ => .err
  | fuel + 1, buf =>
    match parse_one urlParse buf with
    | .err => .ok buf []
    | .panic => .panic
    | .ok b1 qr =>
      if b1.length < buf.length then
        match many0_go urlParse fuel b1 with
        | .ok bf qs => .ok bf (qr :: qs)
        | .err => .err
        | .panic => .panic
      else .err

/-- Mirrors `nom::multi::many0(parse_one)(buf.as_slice())` from
`tracker_search_v3` (main.rs line 147). -/
def many0_rows (urlParse : List Nat → Option Url) (buf : List Nat) :
    ParseOut (List QueryResult) :=
  many0_go urlParse (buf.length + 1) buf

/-- The decode half of `tracker_search_v3` (main.rs lines 137-149), taking
the column-name list of the D-Bus reply and the raw bytes read from the
pipe: a column count other than 4 is the `anyhow` error `"Invalid search
results"`; then `many0(parse_one)(..).unwrap()` — the `unwrap` turns a
`many0`-level error into a panic, and a panic inside a row parse aborts. -/
def tracker_search_decode (urlParse : List Nat → Option Url)
    (cols : List (List Nat)) (buf : List Nat) : QueryOut (List QueryResult) :=
  if cols.length ≠ 4 then .fail "Invalid search results"
  else
    match many0_rows urlParse buf with
    | .ok _ res => .ok res
    | .err => .panic
    | .panic => .panic

/-- The single-column frame parse of `tracker_query_uuid_v3` (main.rs lines
181-186): `tuple((tag([1,0,0,0]), u32, u32))` — a 4-byte tag with value 1,
one `u32` type tag, one `u32` absolute length — followed by
`take(len)`.  No trailing NUL byte is consumed and any bytes after the
taken field are left unread.  A column count other than 1 was already
rejected before this point (main.rs lines 172-175) and the enclosing
`tracker_query_uuid_decode` models that check and the `.unwrap()` calls. -/
def uuid_frame (buf : List Nat) : ParseOut (List Nat) :=
  if buf.take 4 = [1, 0, 0, 0] then
    pbind (liftNom (readU32 (buf.drop 4))) fun b1 _type =>
    pbind (liftNom (readU32 b1)) fun b2 len =>
    pbind (liftNom (takeN len b2)) fun rest2 x => .ok rest2 x
  else .err

/-- The decode tail of `tracker_query_uuid_v3`: any failure of the frame
parse or of the `take` is hit by `.unwrap()` (a panic), then
`from_utf8(x).unwrap()` panics on invalid UTF-8; otherwise the field bytes
are returned. -/
def tracker_query_uuid_decode (cols : List (List Nat)) (buf : List Nat) :
    QueryOut (List Nat) :=
  if cols.length ≠ 1 then .fail "Invalid UUID search result"
  else
    match uuid_frame buf with
    | .ok _ x => if utf8Valid x then .ok x else .panic
    | .err => .panic
    | .panic => .panic

/-- Join byte strings with a single separator byte, as Rust's
`Vec::join(&sep)` / `Vec<String>::join(..)` do: no leading or trailing
separator, nothing for an empty list. -/
def joinSep (sep : Nat) : List (List Nat) → List Nat
  | [] => []
  | [x] => x
  | x :: y :: xs => x ++ sep :: joinSep sep (y :: xs)

/-- Mirrors `format_rofi_option` (main.rs lines 192-211): optional label
bytes, one NUL byte, the metadata blocks (`name ++ 0x1F ++ value`) joined
with the same `0x1F` byte, and one terminating `0x0A`. -/
def format_rofi_option (val : Option (List Nat))
    (meta : List (List Nat × List Nat)) : List Nat :=
  (match val with
   | some s => s
   | none => []) ++
  0 :: (joinSep 31 (meta.map fun nv => nv.1 ++ 31 :: nv.2) ++ [10])

/-- Value of a hexadecimal digit byte, if it is one. -/
def hexVal (c : Nat) : Option Nat :=
  if 48 ≤ c ∧ c ≤ 57 then some (c - 48)
  else if 65 ≤ c ∧ c ≤ 70 then some (c - 55)
  else if 97 ≤ c ∧ c ≤ 102 then some (c - 87)
  else none

/-- Mirrors `percent_encoding::percent_decode_str`: every `%XY` with two
hexadecimal digits becomes the byte `0xXY`; any other `%` is literal. -/
def percent_decode : List Nat → List Nat
  | [] => []
  | 37 :: a :: b :: r =>
    match hexVal a, hexVal b with
    | some x, some y => (16 * x + y) :: percent_decode r
    | _, _ => 37 :: percent_decode (a :: b :: r)
  | c :: r => c :: percent_decode r

/-- The UTF-8 replacement character U+FFFD as UTF-8 bytes. -/
def rep3 : List Nat := [239, 191, 189]

/-- First-continuation-byte constraint of a three-byte UTF-8 sequence. -/
def cont1ok3 (b c : Nat) : Bool :=
  if b = 224 then decide (160 ≤ c ∧ c ≤ 191)
  else if b = 237 then decide (128 ≤ c ∧ c ≤ 159)
  else isCont c

/-- First-continuation-byte constraint of a four-byte UTF-8 sequence. -/
def cont1ok4 (b c : Nat) : Bool :=
  if b = 240 then decide (144 ≤ c ∧ c ≤ 191)
  else if b = 244 then decide (128 ≤ c ∧ c ≤ 143)
  else isCont c

/-- Mirrors `String::from_utf8_lossy` / `decode_utf8_lossy`: valid UTF-8
sequences are copied, each maximal invalid subpart (Rust's `error_len`
convention) is replaced by one U+FFFD, and an incomplete sequence at the
end of input is replaced by one U+FFFD. -/
def utf8Lossy : List Nat → List Nat
  | [] => []
  | b :: r =>
    if b ≤ 127 then b :: utf8Lossy r
    else if 194 ≤ b ∧ b ≤ 223 then
      match r with
      | [] => rep3
      | c :: r2 =>
        if isCont c then b :: c :: utf8Lossy r2
        else rep3 ++ utf8Lossy (c :: r2)
    else if 224 ≤ b ∧ b ≤ 239 then
      match r with
      | [] => rep3
      | c :: r2 =>
        if cont1ok3 b c then
          match r2 with
          | [] => rep3
          | d :: r3 =>
            if isCont d then b :: c :: d :: utf8Lossy r3
            else rep3 ++ utf8Lossy (d :: r3)
        else rep3 ++ utf8Lossy (c :: r2)
    else if 240 ≤ b ∧ b ≤ 244 then
      match r with
      | [] => rep3
      | c :: r2 =>
        if cont1ok4 b c then
          match r2 with
          | [] => rep3
          | d :: r3 =>
            if isCont d then
              match r3 with
              | [] => rep3
              | e :: r4 =>
                if isCont e then b :: c :: d :: e :: utf8Lossy r4
                else rep3 ++ utf8Lossy (e :: r4)
            else rep3 ++ utf8Lossy (d :: r3)
        else rep3 ++ utf8Lossy (c :: r2)
    else rep3 ++ utf8Lossy r
termination_by l => l.length
decreasing_by all_goals simp_all <;> omega


/-- Mirrors `QueryResult::description` (main.rs lines 46-73): when the URL
has path segments, the last segment (percent-decoded, lossily re-decoded)
plus `": "`, then the title if non-empty, then `" ["` ++ the remaining
segments joined by `/` ++ `"]"`; when it has none, only the title. -/
def description (r : QueryResult) : List Nat :=
  match r.uri.path_segments with
  | some segs =>
    let dec := fun s => utf8Lossy (percent_decode s)
    (match segs.getLast? with
     | some f => dec f ++ [58, 32]
     | none => []) ++
    (if r.title.length > 0 then r.title else []) ++
    (32 :: 91 :: (joinSep 47 (segs.dropLast.map dec) ++ [93]))
  | none =>
    (if r.title.length > 0 then r.title else [])

/-- Mirrors `escape_result` (main.rs lines 213-216):
`r.replace('\n', " ").replace('\0', "")` — every newline byte becomes a
space, then every NUL byte is deleted. -/
def escape_result (r : List Nat) : List Nat :=
  (r.map fun c => if c = 10 then 32 else c).filter fun c => c ≠ 0

/-- The bytes of the ASCII string `"info"`. -/
def infoBytes : List Nat := [105, 110, 102, 111]

/-- Mirrors `format_result` (main.rs lines 218-221): the escaped description
as the label and a single metadata pair `("info", uuid)` — the uuid value is
passed through unescaped. -/
def format_result (r : QueryResult) : List Nat :=
  format_rofi_option (some (escape_result (description r))) [(infoBytes, r.uuid)]

/-- The bytes of the ASCII string `"no results"`. -/
def noResultsBytes : List Nat := [110, 111, 32, 114, 101, 115, 117, 108, 116, 115]

/-- The bytes of the ASCII string `"nonselectable"`. -/
def nonselectableBytes : List Nat :=
  [110, 111, 110, 115, 101, 108, 101, 99, 116, 97, 98, 108, 101]

/-- The bytes of the ASCII string `"true"`. -/
def trueBytes : List Nat := [116, 114, 117, 101]

/-- The output-emission tail of `main` (main.rs lines 251-262): with zero
decoded results, exactly one `format_rofi_option` line with label
`"no results"` and metadata `nonselectable=true`; otherwise the
concatenation of `format_result` over the results in order (sequential
`write_all` calls). -/
def main_search_output (results : List QueryResult) : List Nat :=
  if results.length = 0 then
    format_rofi_option (some noResultsBytes) [(nonselectableBytes, trueBytes)]
  else
    List.flatten (results.map format_result)

end TrackerRofi


namespace TrackerRofi

/-! ## Row-frame encodings used in the statements -/

/-- The data section of one 4-column row: each field followed by its NUL
terminator, then the rest of the buffer. -/
def fieldBytes (f0 f1 f2 f3 rest : List Nat) : List Nat :=
  f0 ++ 0 :: (f1 ++ 0 :: (f2 ++ 0 :: (f3 ++ 0 :: rest)))

/-- One encoded 4-column row frame: the `[4,0,0,0]` tag, four little-endian
type tags, four little-endian length markers, then the body. -/
def rowBytes (t0 t1 t2 t3 m0 m1 m2 m3 : Nat) (body : List Nat) : List Nat :=
  4 :: 0 :: 0 :: 0 ::
    (le32 t0 ++ (le32 t1 ++ (le32 t2 ++ (le32 t3 ++
      (le32 m0 ++ (le32 m1 ++ (le32 m2 ++ (le32 m3 ++ body))))))))

/-- The data of one well-formed row, together with the `Url` its locator
field parses to. -/
structure RowData where
  f0 : List Nat
  f1 : List Nat
  f2 : List Nat
  f3 : List Nat
  u : Url
deriving DecidableEq

/-- Well-formedness of a row: all four fields are valid UTF-8, the locator
field parses under the given URL parser, and the row data fits in `u32`
arithmetic. -/
def wfRow (urlParse : List Nat → Option Url) (d : RowData) : Prop :=
  utf8Valid d.f0 = true ∧ utf8Valid d.f1 = true ∧ utf8Valid d.f2 = true ∧
  utf8Valid d.f3 = true ∧ urlParse d.f1 = some d.u ∧
  d.f0.length + d.f1.length + d.f2.length + d.f3.length + 4 < u32Mod

instance wfRow_decidable (urlParse : List Nat → Option Url) (d : RowData) :
    Decidable (wfRow urlParse d) := by
  unfold wfRow
  exact inferInstance

/-- Encoding of one row's data as a row frame (type tags 0), with the length
markers the decoder's `offset += len + 1` baseline rule demands. -/
def encRow (d : RowData) (rest : List Nat) : List Nat :=
  rowBytes 0 0 0 0 d.f0.length (d.f0.length + d.f1.length + 1)
    (d.f0.length + d.f1.length + d.f2.length + 2)
    (d.f0.length + d.f1.length + d.f2.length + d.f3.length + 3)
    (fieldBytes d.f0 d.f1 d.f2 d.f3 rest)

/-- Encoding of a sequence of rows followed by a trailing byte sequence. -/
def rowsBytes : List RowData → List Nat → List Nat
  | [], rest => rest
  | d :: ds, rest => encRow d (rowsBytes ds rest)

/-- The `QueryResult` a well-formed row decodes to. -/
def qrOf (d : RowData) : QueryResult := ⟨d.f0, d.u, d.f2, d.f3⟩

/-! ## Parsing helper lemmas -/

lemma pbind_ok (r : List Nat) (v : α) (f : List Nat → α → ParseOut β) :
    pbind (.ok r v) f = f r v := rfl

@[simp] lemma pbind_err (f : List Nat → α → ParseOut β) :
    pbind ParseOut.err f = .err := rfl

@[simp] lemma pbind_panic (f : List Nat → α → ParseOut β) :
    pbind ParseOut.panic f = .panic := rfl

@[simp] lemma liftNom_some (r : List Nat) (v : α) :
    liftNom (some (r, v)) = ParseOut.ok r v := rfl

@[simp] lemma liftNom_none : liftNom (none : Option (List Nat × α)) = .err := rfl


lemma readU32_le32 (n : Nat) (r : List Nat) (h : n < u32Mod) :
    readU32 (le32 n ++ r) = some (r, n) := by
  simp only [u32Mod] at h
  have hn : n % 256 + 256 * (n / 256 % 256) + 65536 * (n / 65536 % 256) +
      16777216 * (n / 16777216 % 256) = n := by omega
  simp [le32, readU32, hn]

lemma readU32s_four (a b c d : Nat) (r : List Nat) (ha : a < u32Mod)
    (hb : b < u32Mod) (hc : c < u32Mod) (hd : d < u32Mod) :
    readU32s 4 (le32 a ++ (le32 b ++ (le32 c ++ (le32 d ++ r)))) =
      some (r, [a, b, c, d]) := by
  simp [readU32s, readU32_le32, ha, hb, hc, hd]

lemma takeN_exact (f r : List Nat) : takeN f.length (f ++ r) = some (r, f) := by
  simp [takeN, List.length_append]

lemma parse_fields_step (l : Nat) (ls : List Nat) (off : Nat) (f r : List Nat)
    (hoff : l = off + f.length) (hlt : l + 1 < u32Mod)
    (hv : utf8Valid f = true) :
    parse_fields (l :: ls) off (f ++ 0 :: r) =
      match parse_fields ls (l + 1) r with
      | .ok bf xs => .ok bf (f :: xs)
      | .err => .err
      | .panic => .panic := by
  have h1 : wsub l off = f.length := by
    simp only [wsub, u32Mod] at hlt ⊢
    omega
  have h2 : wrap32 (off + f.length + 1) = l + 1 := by
    simp only [wrap32, u32Mod] at hlt ⊢
    omega
  conv_lhs => rw [parse_fields]
  rw [h1, h2, takeN_exact]
  simp [hv]

lemma parse_fields_four (f0 f1 f2 f3 rest : List Nat)
    (hv0 : utf8Valid f0 = true) (hv1 : utf8Valid f1 = true)
    (hv2 : utf8Valid f2 = true) (hv3 : utf8Valid f3 = true)
    (hsz : f0.length + f1.length + f2.length + f3.length + 4 < u32Mod) :
    parse_fields [f0.length, f0.length + f1.length + 1,
        f0.length + f1.length + f2.length + 2,
        f0.length + f1.length + f2.length + f3.length + 3] 0
        (fieldBytes f0 f1 f2 f3 rest) =
      .ok rest [f0, f1, f2, f3] := by
  unfold fieldBytes
  rw [parse_fields_step _ _ 0 f0 _ (by omega) (by omega) hv0]
  rw [parse_fields_step _ _ _ f1 _ (by omega) (by omega) hv1]
  rw [parse_fields_step _ _ _ f2 _ (by omega) (by omega) hv2]
  rw [parse_fields_step _ _ _ f3 _ (by omega) (by omega) hv3]
  rfl

lemma parse_one_frame (urlParse : List Nat → Option Url) (t0 t1 t2 t3 : Nat)
    (f0 f1 f2 f3 rest : List Nat)
    (ht0 : t0 < u32Mod) (ht1 : t1 < u32Mod) (ht2 : t2 < u32Mod)
    (ht3 : t3 < u32Mod)
    (hv0 : utf8Valid f0 = true) (hv1 : utf8Valid f1 = true)
    (hv2 : utf8Valid f2 = true) (hv3 : utf8Valid f3 = true)
    (hsz : f0.length + f1.length + f2.length + f3.length + 4 < u32Mod) :
    parse_one urlParse (rowBytes t0 t1 t2 t3 f0.length
        (f0.length + f1.length + 1) (f0.length + f1.length + f2.length + 2)
        (f0.length + f1.length + f2.length + f3.length + 3)
        (fieldBytes f0 f1 f2 f3 rest)) =
      match urlParse f1 with
      | some u => .ok rest ⟨f0, u, f2, f3⟩
      | none => .panic := by
  have e1 := readU32s_four t0 t1 t2 t3
    (le32 f0.length ++ (le32 (f0.length + f1.length + 1) ++
      (le32 (f0.length + f1.length + f2.length + 2) ++
        (le32 (f0.length + f1.length + f2.length + f3.length + 3) ++
          fieldBytes f0 f1 f2 f3 rest)))) ht0 ht1 ht2 ht3
  have e2 := readU32s_four f0.length (f0.length + f1.length + 1)
    (f0.length + f1.length + f2.length + 2)
    (f0.length + f1.length + f2.length + f3.length + 3)
    (fieldBytes f0 f1 f2 f3 rest)
    (by omega) (by omega) (by omega) (by omega)
  have e3 := parse_fields_four f0 f1 f2 f3 rest hv0 hv1 hv2 hv3 hsz
  unfold parse_one rowBytes
  rw [if_pos (by simp)]
  simp only [List.drop_succ_cons, List.drop_zero]
  rw [e1]
  simp only [liftNom_some]
  rw [pbind_ok]
  rw [e2]
  simp only [liftNom_some]
  rw [pbind_ok]
  rw [e3]
  rw [pbind_ok]
  cases h : urlParse f1 <;> simp [QueryResult.new, h]

end TrackerRofi

namespace TrackerRofi

/-! ## Row-sequence lemmas -/

lemma fieldBytes_length (f0 f1 f2 f3 rest : List Nat) :
    (fieldBytes f0 f1 f2 f3 rest).length =
      f0.length + f1.length + f2.length + f3.length + 4 + rest.length := by
  simp [fieldBytes]
  omega

lemma rowBytes_length (t0 t1 t2 t3 m0 m1 m2 m3 : Nat) (body : List Nat) :
    (rowBytes t0 t1 t2 t3 m0 m1 m2 m3 body).length = 36 + body.length := by
  simp [rowBytes, le32]
  omega

lemma encRow_length (d : RowData) (rest : List Nat) :
    (encRow d rest).length =
      40 + (d.f0.length + d.f1.length + d.f2.length + d.f3.length) +
        rest.length := by
  simp [encRow, rowBytes_length, fieldBytes_length]
  omega

lemma u32Mod_pos_lemmas : 0 < u32Mod := by
  simp [u32Mod]

lemma parse_one_encRow (urlParse : List Nat → Option Url) (d : RowData)
    (rest : List Nat) (hw : wfRow urlParse d) :
    parse_one urlParse (encRow d rest) = .ok rest (qrOf d) := by
  obtain ⟨hv0, hv1, hv2, hv3, hu, hsz⟩ := hw
  unfold encRow
  rw [parse_one_frame urlParse 0 0 0 0 d.f0 d.f1 d.f2 d.f3 rest
    u32Mod_pos_lemmas u32Mod_pos_lemmas u32Mod_pos_lemmas u32Mod_pos_lemmas
    hv0 hv1 hv2 hv3 hsz]
  rw [hu]
  rfl

lemma parse_one_encRow_panic (urlParse : List Nat → Option Url) (d : RowData)
    (rest : List Nat)
    (hv0 : utf8Valid d.f0 = true) (hv1 : utf8Valid d.f1 = true)
    (hv2 : utf8Valid d.f2 = true) (hv3 : utf8Valid d.f3 = true)
    (hu : urlParse d.f1 = none)
    (hsz : d.f0.length + d.f1.length + d.f2.length + d.f3.length + 4 < u32Mod) :
    parse_one urlParse (encRow d rest) = .panic := by
  unfold encRow
  rw [parse_one_frame urlParse 0 0 0 0 d.f0 d.f1 d.f2 d.f3 rest
    u32Mod_pos_lemmas u32Mod_pos_lemmas u32Mod_pos_lemmas u32Mod_pos_lemmas
    hv0 hv1 hv2 hv3 hsz]
  rw [hu]

lemma many0_go_succ_err (urlParse : List Nat → Option Url) (fuel : Nat)
    (buf : List Nat) (h : parse_one urlParse buf = .err) :
    many0_go urlParse (fuel + 1) buf = .ok buf [] := by
  simp only [many0_go]
  rw [h]

lemma many0_go_succ_panic (urlParse : List Nat → Option Url) (fuel : Nat)
    (buf : List Nat) (h : parse_one urlParse buf = .panic) :
    many0_go urlParse (fuel + 1) buf = .panic := by
  simp only [many0_go]
  rw [h]

lemma many0_go_succ_ok (urlParse : List Nat → Option Url) (fuel : Nat)
    (buf b1 : List Nat) (qr : QueryResult)
    (h : parse_one urlParse buf = .ok b1 qr) (hlt : b1.length < buf.length) :
    many0_go urlParse (fuel + 1) buf =
      match many0_go urlParse fuel b1 with
      | .ok bf qs => .ok bf (qr :: qs)
      | .err => .err
      | .panic => .panic := by
  simp only [many0_go]
  rw [h]
  dsimp only
  rw [if_pos hlt]

lemma many0_go_rows (urlParse : List Nat → Option Url) :
    ∀ (rows : List RowData) (rest : List Nat) (fuel : Nat),
      (∀ d ∈ rows, wfRow urlParse d) →
      parse_one urlParse rest = .err →
      (rowsBytes rows rest).length < fuel →
      many0_go urlParse fuel (rowsBytes rows rest) =
        .ok rest (rows.map qrOf) := by
  intro rows
  induction rows with
  | nil =>
    intro rest fuel hw hrest hfuel
    cases fuel with
    | zero => exact absurd hfuel (Nat.not_lt_zero _)
    | succ f =>
      simp only [rowsBytes, List.map_nil]
      rw [many0_go_succ_err urlParse f rest hrest]
  | cons d ds ih =>
    intro rest fuel hw hrest hfuel
    have hwd : wfRow urlParse d := hw d (by simp)
    have hwds : ∀ x ∈ ds, wfRow urlParse x := fun x hx => hw x (by simp [hx])
    cases fuel with
    | zero => exact absurd hfuel (Nat.not_lt_zero _)
    | succ f =>
      have hlen : (rowsBytes ds rest).length <
          (encRow d (rowsBytes ds rest)).length := by
        rw [encRow_length]
        omega
      have hfuel2 : (rowsBytes ds rest).length < f := by
        simp only [rowsBytes] at hfuel
        rw [encRow_length] at hfuel
        omega
      have hrec := ih rest f hwds hrest hfuel2
      simp only [rowsBytes, List.map_cons]
      rw [many0_go_succ_ok urlParse f (encRow d (rowsBytes ds rest))
        (rowsBytes ds rest) (qrOf d)
        (parse_one_encRow urlParse d (rowsBytes ds rest) hwd) hlen]
      rw [hrec]

end TrackerRofi

namespace TrackerRofi

lemma many0_rows_panic (urlParse : List Nat → Option Url) (buf : List Nat)
    (h : parse_one urlParse buf = .panic) :
    many0_rows urlParse buf = .panic := by
  unfold many0_rows
  exact many0_go_succ_panic urlParse buf.length buf h

lemma tracker_search_decode_panic (urlParse : List Nat → Option Url)
    (cols : List (List Nat)) (buf : List Nat) (hc : cols.length = 4)
    (h : parse_one urlParse buf = .panic) :
    tracker_search_decode urlParse cols buf = .panic := by
  unfold tracker_search_decode
  rw [if_neg (by omega)]
  rw [many0_rows_panic urlParse buf h]

/-! ## Single-column (identifier-resolution) frame lemmas -/

lemma uuid_frame_ok (t : Nat) (x rest : List Nat) (ht : t < u32Mod)
    (hx : x.length < u32Mod) :
    uuid_frame (1 :: 0 :: 0 :: 0 ::
      (le32 t ++ (le32 x.length ++ (x ++ rest)))) = .ok rest x := by
  unfold uuid_frame
  rw [if_pos (by simp)]
  simp only [List.drop_succ_cons, List.drop_zero]
  rw [readU32_le32 t _ ht]
  simp only [liftNom_some]
  rw [pbind_ok]
  rw [readU32_le32 x.length _ hx]
  simp only [liftNom_some]
  rw [pbind_ok]
  rw [takeN_exact]
  simp only [liftNom_some]
  rw [pbind_ok]

lemma uuid_decode_ok (cols : List (List Nat)) (t : Nat) (x rest : List Nat)
    (hc : cols.length = 1) (ht : t < u32Mod) (hx : x.length < u32Mod)
    (hv : utf8Valid x = true) :
    tracker_query_uuid_decode cols (1 :: 0 :: 0 :: 0 ::
      (le32 t ++ (le32 x.length ++ (x ++ rest)))) = .ok x := by
  unfold tracker_query_uuid_decode
  rw [if_neg (by omega)]
  rw [uuid_frame_ok t x rest ht hx]
  simp [hv]

/-! ## Encoder lemmas -/

lemma joinSep_count_free (c a : Nat) :
    ∀ (bs : List (List Nat)), (∀ b ∈ bs, b.count c = 0) →
      (joinSep a bs).count c = if c = a then bs.length - 1 else 0 := by
  intro bs
  induction bs with
  | nil => intro h; simp [joinSep]
  | cons x xs ih =>
    intro h
    cases xs with
    | nil => simp [joinSep, h x (by simp)]
    | cons y ys =>
      have hx := h x (by simp)
      have hrest : ∀ b ∈ y :: ys, b.count c = 0 :=
        fun b hb => h b (List.mem_cons_of_mem _ hb)
      have hys := ih hrest
      simp only [joinSep, List.count_append, List.count_cons, hx, hys]
      by_cases hca : c = a
      · subst hca
        simp
      · simp [hca, Ne.symm hca]

lemma escape_result_mem (s : List Nat) :
    ∀ c ∈ escape_result s, c ≠ 10 ∧ c ≠ 0 := by
  intro c hc
  unfold escape_result at hc
  rw [List.mem_filter] at hc
  obtain ⟨hmap, hne⟩ := hc
  rw [List.mem_map] at hmap
  obtain ⟨a, _, ha⟩ := hmap
  constructor
  · intro h10
    by_cases h : a = 10 <;> simp [h] at ha <;> omega
  · simpa using hne

lemma escape_result_count_ten (s : List Nat) :
    (escape_result s).count 10 = 0 := by
  rw [List.count_eq_zero]
  intro hmem
  exact (escape_result_mem s 10 hmem).1 rfl

lemma escape_result_count_zero (s : List Nat) :
    (escape_result s).count 0 = 0 := by
  rw [List.count_eq_zero]
  intro hmem
  exact (escape_result_mem s 0 hmem).2 rfl

lemma map_id_of_mem (f : Nat → Nat) :
    ∀ (l : List Nat), (∀ c ∈ l, f c = c) → l.map f = l := by
  intro l
  induction l with
  | nil => intro _; rfl
  | cons a as ih =>
    intro h
    simp only [List.map_cons, h a (by simp),
      ih (fun c hc => h c (List.mem_cons_of_mem _ hc))]

end TrackerRofi

namespace TrackerRofi

/-! ## Claim theorems -/

/-- C1: for every well-formed multi-row buffer, the per-row decoder
`parse_one` reads a 4-byte tag whose (little/native-endian) integer value is
the column count 4 — failing the row decode with a `nom` error when the
first four bytes are anything else — then four machine-word type tags that
are consumed and discarded whatever their values (the result does not depend
on `t0..t3`), then four machine-word cumulative length markers, then each
field as exactly its computed length in raw UTF-8 bytes followed by one
consumed NUL byte; the marker of field `i` here is
`|f_0| + .. + |f_i| + i`, which is precisely the value the decoder's
`offset += len + 1` baseline-advance rule demands, so the parse ends exactly
at `rest` with the four fields recovered. -/
theorem c1_row_frame_decode
    (urlParse : List Nat → Option Url) (t0 t1 t2 t3 : Nat)
    (f0 f1 f2 f3 rest : List Nat) (u : Url)
    (ht0 : t0 < u32Mod) (ht1 : t1 < u32Mod) (ht2 : t2 < u32Mod)
    (ht3 : t3 < u32Mod)
    (hv0 : utf8Valid f0 = true) (hv1 : utf8Valid f1 = true)
    (hv2 : utf8Valid f2 = true) (hv3 : utf8Valid f3 = true)
    (hu : urlParse f1 = some u)
    (hsz : f0.length + f1.length + f2.length + f3.length + 4 < u32Mod) :
    parse_one urlParse (rowBytes t0 t1 t2 t3 f0.length
        (f0.length + f1.length + 1) (f0.length + f1.length + f2.length + 2)
        (f0.length + f1.length + f2.length + f3.length + 3)
        (fieldBytes f0 f1 f2 f3 rest)) = .ok rest ⟨f0, u, f2, f3⟩ ∧
    (∀ b : List Nat, b.take 4 ≠ [4, 0, 0, 0] → parse_one urlParse b = .err) := by
  constructor
  · rw [parse_one_frame urlParse t0 t1 t2 t3 f0 f1 f2 f3 rest ht0 ht1 ht2 ht3
      hv0 hv1 hv2 hv3 hsz, hu]
  · intro b hb
    unfold parse_one
    rw [if_neg hb]

/-- Witness for C1 at a concrete input: one row with fields `"h" "i" "j" "k"`
(type tags 0,1,2,3, markers 1,3,5,7) decodes to those fields with the
trailing byte 9 left unconsumed, and a buffer whose first four bytes are not
the tag fails the row parse. -/
theorem c1_row_frame_decode_witness :
    parse_one urlAccept (rowBytes 0 1 2 3 1 3 5 7
        (fieldBytes [104] [105] [106] [107] [9])) =
      .ok [9] ⟨[104], ⟨none⟩, [106], [107]⟩ ∧
    parse_one urlAccept [9, 9] = .err := by
  exact ⟨(c1_row_frame_decode urlAccept 0 1 2 3 [104] [105] [106] [107] [9]
      ⟨none⟩ (by decide) (by decide) (by decide) (by decide) (by decide)
      (by decide) (by decide) (by decide) rfl (by decide)).1,
    (c1_row_frame_decode urlAccept 0 1 2 3 [104] [105] [106] [107] [9]
      ⟨none⟩ (by decide) (by decide) (by decide) (by decide) (by decide)
      (by decide) (by decide) (by decide) rfl (by decide)).2 [9, 9] (by decide)⟩

/-- C2 counterexample: the claim says the four recovered field lengths are
`l0, l1-l0, l2-l1, l3-l2`.  On the concrete accepted row with cumulative
length markers `[1,3,5,7]` the decoder recovers the fields
`"a" "b" "c" "d"`, so the third field has length 1, while the claim's
`l2 - l1 = 5 - 3` is 2: the markers count the NUL terminators, so field
`i`'s length is `l_i - l_(i-1) - 1`, not `l_i - l_(i-1)`. -/
theorem c2_cumulative_length_counterexample :
    parse_one urlAccept
      [4, 0, 0, 0,
       0, 0, 0, 0, 0, 0, 0, 0, 0, 0, 0, 0, 0, 0, 0, 0,
       1, 0, 0, 0, 3, 0, 0, 0, 5, 0, 0, 0, 7, 0, 0, 0,
       97, 0, 98, 0, 99, 0, 100, 0] =
      .ok [] ⟨[97], ⟨none⟩, [99], [100]⟩ ∧
    ¬ (([99] : List Nat).length = 5 - 3) := by
  decide

/-- C2 (amended): for every accepted 4-column row buffer with cumulative
length markers `[l0, l1, l2, l3]`, decoding recovers four fields of lengths
`l0`, `l1 - l0 - 1`, `l2 - l1 - 1` and `l3 - l2 - 1` (the markers are
offsets into the data region counting each field's NUL terminator), each
field followed by a consumed NUL byte. -/
theorem c2_field_lengths
    (urlParse : List Nat → Option Url) (u : Url)
    (l0 l1 l2 l3 t0 t1 t2 t3 : Nat) (f0 f1 f2 f3 rest : List Nat)
    (h0 : f0.length = l0) (h1 : f1.length = l1 - l0 - 1)
    (h2 : f2.length = l2 - l1 - 1) (h3 : f3.length = l3 - l2 - 1)
    (ho1 : l0 < l1) (ho2 : l1 < l2) (ho3 : l2 < l3)
    (ht0 : t0 < u32Mod) (ht1 : t1 < u32Mod) (ht2 : t2 < u32Mod)
    (ht3 : t3 < u32Mod)
    (hv0 : utf8Valid f0 = true) (hv1 : utf8Valid f1 = true)
    (hv2 : utf8Valid f2 = true) (hv3 : utf8Valid f3 = true)
    (hu : urlParse f1 = some u)
    (hsz : l3 + 1 < u32Mod) :
    parse_one urlParse (rowBytes t0 t1 t2 t3 l0 l1 l2 l3
        (fieldBytes f0 f1 f2 f3 rest)) = .ok rest ⟨f0, u, f2, f3⟩ := by
  have e0 : l0 = f0.length := h0.symm
  have e1 : l1 = f0.length + f1.length + 1 := by omega
  have e2 : l2 = f0.length + f1.length + f2.length + 2 := by omega
  have e3 : l3 = f0.length + f1.length + f2.length + f3.length + 3 := by omega
  subst e0 e1 e2 e3
  rw [parse_one_frame urlParse t0 t1 t2 t3 f0 f1 f2 f3 rest ht0 ht1 ht2 ht3
    hv0 hv1 hv2 hv3 (by omega), hu]

/-- Witness for the amended C2 at a concrete input: markers `[2,4,5,7]` give
fields of lengths 2, 1, 0, 1. -/
theorem c2_field_lengths_witness :
    parse_one urlAccept (rowBytes 9 9 9 9 2 4 5 7
        (fieldBytes [97, 98] [115] [] [120] [42])) =
      .ok [42] ⟨[97, 98], ⟨none⟩, [], [120]⟩ := by
  exact c2_field_lengths urlAccept ⟨none⟩ 2 4 5 7 9 9 9 9
    [97, 98] [115] [] [120] [42] rfl rfl rfl rfl
    (by decide) (by decide) (by decide) (by decide) (by decide) (by decide)
    (by decide) (by decide) (by decide) (by decide) (by decide) rfl (by decide)

end TrackerRofi

namespace TrackerRofi

/-- C3 counterexample: a buffer holding one well-formed row (fields
`"a" "u" "t" ""`, markers `[1,3,5,6]`) followed by the malformed bytes
`[5,0,0,0]` (a bad row tag) decodes SUCCESSFULLY to the single row —
`nom::multi::many0` treats the failing row parse as the loop terminator, so
the decode returns the partial result sequence instead of failing with a
`FormatError` as the claim requires. -/
theorem c3_partial_result_counterexample :
    tracker_search_decode urlAccept [[99], [99], [99], [99]]
      [4, 0, 0, 0,
       0, 0, 0, 0, 0, 0, 0, 0, 0, 0, 0, 0, 0, 0, 0, 0,
       1, 0, 0, 0, 3, 0, 0, 0, 5, 0, 0, 0, 6, 0, 0, 0,
       97, 0, 117, 0, 116, 0, 0,
       5, 0, 0, 0] =
      .ok [⟨[97], ⟨none⟩, [116], []⟩] := by
  decide

/-- C3 (amended): the multi-row decode repeats `parse_one` across the
buffer; end-of-input terminates the loop successfully, and so does ANY row
that fails with a recoverable parser error (bad tag, truncated buffer,
too-large computed length): the rows parsed before the failure are returned
as a successful partial result and the malformed tail is ignored.  (A panic
inside a row — invalid UTF-8 or an unparseable locator — aborts instead;
no error value called `FormatError` exists on this path.) -/
theorem c3_decode_loop
    (urlParse : List Nat → Option Url) (cols : List (List Nat))
    (rows : List RowData) (rest : List Nat)
    (hc : cols.length = 4)
    (hw : ∀ d ∈ rows, wfRow urlParse d)
    (hrest : parse_one urlParse rest = .err) :
    tracker_search_decode urlParse cols (rowsBytes rows rest) =
      .ok (rows.map qrOf) := by
  unfold tracker_search_decode
  rw [if_neg (by omega)]
  unfold many0_rows
  rw [many0_go_rows urlParse rows rest ((rowsBytes rows rest).length + 1)
    hw hrest (by omega)]

/-- Witness for the amended C3 at a concrete input: two well-formed rows
followed by the garbage bytes `[5,0,0,0]` decode to exactly the two rows
(and with `rest = []` the same theorem gives clean end-of-buffer
termination). -/
theorem c3_decode_loop_witness :
    tracker_search_decode urlAccept [[1], [2], [3], [4]]
      (rowsBytes [⟨[97], [117], [], [], ⟨none⟩⟩, ⟨[98], [118], [], [], ⟨none⟩⟩]
        [5, 0, 0, 0]) =
      .ok [⟨[97], ⟨none⟩, [], []⟩, ⟨[98], ⟨none⟩, [], []⟩] ∧
    tracker_search_decode urlAccept [[1], [2], [3], [4]] (rowsBytes [] []) =
      .ok [] := by
  exact ⟨c3_decode_loop urlAccept [[1], [2], [3], [4]]
      [⟨[97], [117], [], [], ⟨none⟩⟩, ⟨[98], [118], [], [], ⟨none⟩⟩]
      [5, 0, 0, 0] (by decide) (by decide) (by decide),
    c3_decode_loop urlAccept [[1], [2], [3], [4]] [] [] (by decide)
      (by decide) (by decide)⟩

/-- C4 (code bug): a row whose locator text fails `Url::parse` is NOT
omitted from the result sequence — `parse_one` calls
`QueryResult::new(..).unwrap()` (main.rs line 104), so the `None` returned
by the `Option`-typed constructor makes the whole decode panic, and the
following well-formed row is never returned.  The first conjunct shows the
panic; the second states that this differs from the claim's expected output
(the good row alone). -/
theorem c4_locator_parse_failure_panics
    (urlParse : List Nat → Option Url) (bad good : RowData)
    (cols : List (List Nat)) (hc : cols.length = 4)
    (hv0 : utf8Valid bad.f0 = true) (hv1 : utf8Valid bad.f1 = true)
    (hv2 : utf8Valid bad.f2 = true) (hv3 : utf8Valid bad.f3 = true)
    (hbad : urlParse bad.f1 = none)
    (hszbad : bad.f0.length + bad.f1.length + bad.f2.length +
      bad.f3.length + 4 < u32Mod) :
    tracker_search_decode urlParse cols (rowsBytes [bad, good] []) =
      .panic ∧
    (QueryOut.panic : QueryOut (List QueryResult)) ≠ .ok [qrOf good] := by
  constructor
  · have hp : parse_one urlParse (rowsBytes [bad, good] []) = .panic := by
      simp only [rowsBytes]
      exact parse_one_encRow_panic urlParse bad _ hv0 hv1 hv2 hv3 hbad hszbad
    exact tracker_search_decode_panic urlParse cols (rowsBytes [bad, good] [])
      hc hp
  · simp

/-- Witness for C4 at a concrete input: under a URL parser that rejects the
locator `"b"`, a buffer holding the bad row then a well-formed row makes the
whole decode panic. -/
theorem c4_locator_parse_failure_panics_witness :
    tracker_search_decode urlRejectB [[1], [2], [3], [4]]
      (rowsBytes [⟨[97], [98], [], [], ⟨none⟩⟩, ⟨[99], [100], [], [], ⟨none⟩⟩]
        []) = .panic ∧
    (QueryOut.panic : QueryOut (List QueryResult)) ≠
      .ok [qrOf ⟨[99], [100], [], [], ⟨none⟩⟩] := by
  exact c4_locator_parse_failure_panics urlRejectB
    ⟨[97], [98], [], [], ⟨none⟩⟩ ⟨[99], [100], [], [], ⟨none⟩⟩
    [[1], [2], [3], [4]] (by decide) (by decide) (by decide) (by decide)
    (by decide) (by decide) (by decide)

end TrackerRofi

namespace TrackerRofi

/-- C5: the single-column identifier-resolution decode reads a 4-byte tag
with value 1 (`[1,0,0,0]` little/native-endian), one 4-byte type tag `t`,
one 4-byte absolute length, then returns exactly that many raw bytes as the
field; the bytes `rest` after the field are arbitrary and untouched — in
particular no trailing NUL byte is consumed, unlike the multi-column
form. -/
theorem c5_uuid_frame_decode
    (cols : List (List Nat)) (t : Nat) (x rest : List Nat)
    (hc : cols.length = 1) (ht : t < u32Mod) (hx : x.length < u32Mod)
    (hv : utf8Valid x = true) :
    tracker_query_uuid_decode cols (1 :: 0 :: 0 :: 0 ::
      (le32 t ++ (le32 x.length ++ (x ++ rest)))) = .ok x := by
  exact uuid_decode_ok cols t x rest hc ht hx hv

/-- Witness for C5 at a concrete input: a frame with type tag 7 and length 2
over `"hi"` followed by the non-NUL byte 77 decodes to exactly `"hi"`,
showing no trailing NUL is demanded or consumed. -/
theorem c5_uuid_frame_decode_witness :
    tracker_query_uuid_decode [[117]] (1 :: 0 :: 0 :: 0 ::
      (le32 7 ++ (le32 ([104, 105] : List Nat).length ++
        ([104, 105] ++ [77])))) = .ok [104, 105] := by
  exact c5_uuid_frame_decode [[117]] 7 [104, 105] [77]
    (by decide) (by decide) (by decide) (by decide)

/-- C6 counterexample: when the identifier resolves to zero rows the byte
stream is empty, and the decode PANICS (`.unwrap()` on the failed frame
parse, main.rs line 184) instead of failing with a `NotFoundError` carrying
"no results" — no such error value exists anywhere on this path. -/
theorem c6_zero_rows_counterexample :
    tracker_query_uuid_decode [[117, 114, 108]] [] = .panic ∧
    (QueryOut.panic : QueryOut (List Nat)) ≠ .fail "no results" := by
  decide

/-- C6 (amended): the identifier-resolution decode requires exactly one
column: a reply advertising any other column count fails with the generic
error `"Invalid UUID search result"`; with one column, an empty byte stream
(zero rows) makes the decode panic via `.unwrap()`; and a well-formed first
frame decodes to its field with all bytes after the frame ignored, so extra
rows are not detected or rejected. -/
theorem c6_uuid_shape
    (cols : List (List Nat)) (buf : List Nat) (t : Nat) (x rest : List Nat) :
    (cols.length ≠ 1 →
      tracker_query_uuid_decode cols buf = .fail "Invalid UUID search result") ∧
    (cols.length = 1 → tracker_query_uuid_decode cols [] = .panic) ∧
    (cols.length = 1 → t < u32Mod → x.length < u32Mod →
      utf8Valid x = true →
      tracker_query_uuid_decode cols (1 :: 0 :: 0 :: 0 ::
        (le32 t ++ (le32 x.length ++ (x ++ rest)))) = .ok x) := by
  refine ⟨?_, ?_, ?_⟩
  · intro h
    unfold tracker_query_uuid_decode
    rw [if_pos h]
  · intro h
    unfold tracker_query_uuid_decode
    rw [if_neg (by omega)]
    have he : uuid_frame [] = .err := by decide
    rw [he]
  · intro h1 h2 h3 h4
    exact uuid_decode_ok cols t x rest h1 h2 h3 h4

/-- Witness for the amended C6 at concrete inputs: two columns give the
generic error, one column with an empty stream panics, and one column with
a well-formed frame plus trailing bytes succeeds. -/
theorem c6_uuid_shape_witness :
    tracker_query_uuid_decode [[117], [118]] [3] =
      .fail "Invalid UUID search result" ∧
    tracker_query_uuid_decode [[117]] [] = .panic ∧
    tracker_query_uuid_decode [[117]] (1 :: 0 :: 0 :: 0 ::
      (le32 7 ++ (le32 ([104, 105] : List Nat).length ++
        ([104, 105] ++ [77])))) = .ok [104, 105] := by
  exact ⟨(c6_uuid_shape [[117], [118]] [3] 7 [104, 105] [77]).1 (by decide),
    (c6_uuid_shape [[117]] [] 7 [104, 105] [77]).2.1 (by decide),
    (c6_uuid_shape [[117]] [] 7 [104, 105] [77]).2.2 (by decide) (by decide)
      (by decide) (by decide)⟩

end TrackerRofi

namespace TrackerRofi

/-- C7: for every label and metadata sequence, `format_rofi_option` emits
exactly the label bytes (when present), one NUL byte, the metadata blocks
`name ++ 0x1F ++ value` joined to each other with the same `0x1F` byte with
no trailing delimiter, and exactly one terminating LF: the byte-exact layout
is the first conjunct, and when the inputs carry no LF or NUL bytes of their
own the emitted line contains exactly one NUL (the label delimiter) and
exactly one LF (the final byte). -/
theorem c7_format_rofi_option_layout
    (val : Option (List Nat)) (meta : List (List Nat × List Nat))
    (h10 : (val.getD []).count 10 = 0)
    (hm10 : ∀ nv ∈ meta, nv.1.count 10 = 0 ∧ nv.2.count 10 = 0)
    (h0 : (val.getD []).count 0 = 0)
    (hm0 : ∀ nv ∈ meta, nv.1.count 0 = 0 ∧ nv.2.count 0 = 0) :
    format_rofi_option val meta =
      (val.getD []) ++ 0 ::
        (joinSep 31 (meta.map fun nv => nv.1 ++ 31 :: nv.2) ++ [10]) ∧
    (format_rofi_option val meta).count 10 = 1 ∧
    (format_rofi_option val meta).count 0 = 1 ∧
    (format_rofi_option val meta).getLast? = some 10 := by
  have heq : format_rofi_option val meta =
      (val.getD []) ++ 0 ::
        (joinSep 31 (meta.map fun nv => nv.1 ++ 31 :: nv.2) ++ [10]) := by
    cases val <;> rfl
  have hb10 : ∀ b ∈ meta.map (fun nv => nv.1 ++ 31 :: nv.2), b.count 10 = 0 := by
    intro b hb
    rw [List.mem_map] at hb
    obtain ⟨nv, hnv, rfl⟩ := hb
    simp [List.count_append, List.count_cons, (hm10 nv hnv).1, (hm10 nv hnv).2]
  have hb0 : ∀ b ∈ meta.map (fun nv => nv.1 ++ 31 :: nv.2), b.count 0 = 0 := by
    intro b hb
    rw [List.mem_map] at hb
    obtain ⟨nv, hnv, rfl⟩ := hb
    simp [List.count_append, List.count_cons, (hm0 nv hnv).1, (hm0 nv hnv).2]
  have hj10 := joinSep_count_free 10 31 _ hb10
  have hj0 := joinSep_count_free 0 31 _ hb0
  refine ⟨heq, ?_, ?_, ?_⟩
  · rw [heq]
    simp only [List.count_append, List.count_cons, hj10] at *
    simp [h10, hj10]
  · rw [heq]
    simp [List.count_append, List.count_cons, h0, hj0]
  · rw [heq, show (val.getD []) ++ 0 ::
        (joinSep 31 (meta.map fun nv => nv.1 ++ 31 :: nv.2) ++ [10]) =
      ((val.getD []) ++ 0 ::
        joinSep 31 (meta.map fun nv => nv.1 ++ 31 :: nv.2)) ++ [10] by simp]
    rw [List.getLast?_concat]

/-- Witness for C7 at a concrete input: label `"a"` and the two metadata
pairs `("n","v")` and `("m","w")` produce the exact line
`a NUL n 0x1F v 0x1F m 0x1F w LF` with one NUL and one LF. -/
theorem c7_format_rofi_option_layout_witness :
    format_rofi_option (some [97]) [([110], [118]), ([109], [119])] =
      [97] ++ 0 :: (joinSep 31 [[110, 31, 118], [109, 31, 119]] ++ [10]) ∧
    (format_rofi_option (some [97])
      [([110], [118]), ([109], [119])]).count 10 = 1 ∧
    (format_rofi_option (some [97])
      [([110], [118]), ([109], [119])]).count 0 = 1 ∧
    (format_rofi_option (some [97])
      [([110], [118]), ([109], [119])]).getLast? = some 10 := by
  exact c7_format_rofi_option_layout (some [97]) [([110], [118]), ([109], [119])]
    (by decide) (by decide) (by decide) (by decide)

/-- C8 counterexample: a `QueryResult` whose identifier is `"a\nb"` (bytes
`[97,10,98]`), with an empty title and a cannot-be-a-base locator, is
encoded as `[0, 105,110,102,111, 31, 97,10,98, 10]`: the newline inside the
identifier is emitted verbatim in the `info` metadata value, so the line
contains two `0x0A` bytes and the claim that every free-text field is
escaped before emission (with the only `0x0A` being the terminator) is
false. -/
theorem c8_unescaped_identifier_counterexample :
    (format_result ⟨[97, 10, 98], ⟨none⟩, [], []⟩).count 10 = 2 ∧
    format_result ⟨[97, 10, 98], ⟨none⟩, [], []⟩ =
      [0, 105, 110, 102, 111, 31, 97, 10, 98, 10] := by
  decide

/-- C8 (amended): the encoder escapes the composed label (newlines become
spaces, NULs are deleted), so the label part of the emitted line contains no
raw NUL or newline byte; the metadata name is the literal `"info"`, but the
identifier placed as the metadata value is NOT escaped and is emitted
byte-for-byte. -/
theorem c8_label_escaped (r : QueryResult) :
    format_result r = escape_result (description r) ++
      0 :: ((infoBytes ++ 31 :: r.uuid) ++ [10]) ∧
    (escape_result (description r)).count 10 = 0 ∧
    (escape_result (description r)).count 0 = 0 := by
  refine ⟨?_, escape_result_count_ten _, escape_result_count_zero _⟩
  unfold format_result format_rofi_option
  simp [joinSep]

/-- C9: with zero decoded results the program emits exactly one line — the
`format_rofi_option` line with label `"no results"` and sole metadata pair
`nonselectable=true` — never empty output; the emission depends only on the
decoded result list (main.rs lines 251-254), so this holds regardless of
the query text. -/
theorem c9_no_results_line :
    main_search_output [] =
      format_rofi_option (some noResultsBytes)
        [(nonselectableBytes, trueBytes)] ∧
    (main_search_output []).count 10 = 1 ∧
    (main_search_output []).getLast? = some 10 ∧
    main_search_output [] ≠ [] := by
  decide

lemma escape_result_of_clean (l : List Nat) (h : ∀ c ∈ l, c ≠ 10 ∧ c ≠ 0) :
    escape_result l = l := by
  unfold escape_result
  rw [map_id_of_mem _ l (fun c hc => if_neg (h c hc).1)]
  exact List.filter_eq_self.mpr (fun c hc => by simpa using (h c hc).2)

/-- C10: escaping is idempotent — the output of `escape_result` never
contains a newline or NUL byte, so escaping an already-escaped string
changes nothing. -/
theorem c10_escape_idempotent (s : List Nat) :
    escape_result (escape_result s) = escape_result s :=
  escape_result_of_clean (escape_result s) (escape_result_mem s)

end TrackerRofi
